import Mathlib

/-!
Shallow embedding of the react-get-post coordination core: the
process-wide double maps, `clearCache`, the epoch ledgers
(`incrementGetEpoch` / `incrementSetEpoch`), the read side (`useGet`
initial state and the `trigger` operation) and the write side (`usePost`
and its `post` operation), together with theorems checking the
repository's specification.

Modelling conventions:
* A JavaScript `Map` is an insertion-ordered association list
  (`JMap`); `Map.get` returns the first entry for a key, `Map.set`
  replaces an existing entry in place or appends a new one, exactly the
  JS semantics.
* JS payload values are a small concrete domain `Val` (undefined, null,
  booleans, integers, strings) with JS truthiness `truthy`.
* The outcome of the injected getter/poster promise is
  `Except String Val` (error message or resolved value).
* Calls to registered callbacks (`setData` pushes, `trigger` re-fetches)
  and the `setTimeout` retry are modelled as an explicit list of emitted
  `Effect`s; the registries store the registration itself (presence),
  since a stored callback is identified by the instance and url it was
  registered under.
* Each `async` operation is split at its single `await` point into a
  start function and a resolution function, the resolution taking the
  state current at resolve time plus the epoch captured at start, as in
  the source.
-/

namespace ReactGetPost

/-- JS-like payload value domain: undefined, null, booleans, integers, strings. -/
inductive Val where
  | undef
  | vnull
  | vbool (b : Bool)
  | vint (n : Int)
  | vstr (s : String)
deriving DecidableEq

/-- JS truthiness of a `Val`. -/
def truthy : Val → Bool
  | .undef => false
  | .vnull => false
  | .vbool b => b
  | .vint n => n != 0
  | .vstr s => s != ""

/-- A JavaScript `Map` with string keys: insertion-ordered association list. -/
abbrev JMap (β : Type) := List (String × β)

/-- JS `Map.get`: first entry with the key, else undefined (`none`). -/
def JMap.get {β : Type} : JMap β → String → Option β
  | [], _ => none
  | p :: rest, k => if p.1 = k then some p.2 else JMap.get rest k

/-- JS `Map.set`: replace an existing entry in place, else append. -/
def JMap.set {β : Type} : JMap β → String → β → JMap β
  | [], k, v => [(k, v)]
  | p :: rest, k, v => if p.1 = k then (k, v) :: rest else p :: JMap.set rest k v

@[simp]
theorem JMap.get_nil {β : Type} (k : String) : JMap.get ([] : JMap β) k = none := rfl

theorem JMap.get_set {β : Type} (m : JMap β) (k k' : String) (v : β) :
    JMap.get (JMap.set m k v) k' = if k' = k then some v else JMap.get m k' := by
  induction m with
  | nil =>
    simp only [JMap.set, JMap.get]
    by_cases h : k' = k
    · subst h; simp
    · simp [h, Ne.symm h]
  | cons p rest ih =>
    simp only [JMap.set]
    by_cases hp : p.1 = k
    · subst hp
      simp only [if_pos rfl, JMap.get]
      by_cases h : k' = p.1
      · subst h; simp
      · simp [h, Ne.symm h]
    · simp only [if_neg hp, JMap.get, ih]
      by_cases hk : k' = k
      · subst hk
        simp [hp]
      · simp [hk]

/-- The first entry found is the entry of a key, when present (`Map.get`). -/
theorem JMap.get_mem {β : Type} {m : JMap β} {k : String} {v : β}
    (h : JMap.get m k = some v) : (k, v) ∈ m := by
  induction m with
  | nil => simp [JMap.get] at h
  | cons p rest ih =>
    rcases p with ⟨pk, pv⟩
    by_cases hp : pk = k
    · simp only [JMap.get, if_pos hp, Option.some.injEq] at h
      subst hp
      subst h
      exact List.mem_cons_self _ _
    · simp only [JMap.get, if_neg hp] at h
      exact List.mem_cons_of_mem _ (ih h)

/-- With JS `Map` key uniqueness, membership determines the `get` result. -/
theorem JMap.get_of_mem_nodup {β : Type} {m : JMap β} {k : String} {v : β}
    (hnd : (m.map Prod.fst).Nodup) (h : (k, v) ∈ m) : JMap.get m k = some v := by
  induction m with
  | nil => simp at h
  | cons p rest ih =>
    simp only [List.map_cons, List.nodup_cons] at hnd
    rcases List.mem_cons.1 h with h1 | h1
    · subst h1
      simp [JMap.get]
    · have hk : p.1 ≠ k := by
        intro he
        exact hnd.1 (he ▸ (List.mem_map.2 ⟨(k, v), h1, rfl⟩))
      simp [JMap.get, hk]
      exact ih hnd.2 h1

/-- Source `getFromDoubleMap`: `map.get(instanceId)?.get(url)`. -/
def getFromDoubleMap {β : Type} (m : JMap (JMap β)) (instanceId url : String) : Option β :=
  (JMap.get m instanceId).bind (fun im => JMap.get im url)

/-- Source `setInDoubleMap`: ensure the inner map exists, then set `(url, value)` in it. -/
def setInDoubleMap {β : Type} (m : JMap (JMap β)) (instanceId url : String) (v : β) :
    JMap (JMap β) :=
  JMap.set m instanceId (JMap.set ((JMap.get m instanceId).getD []) url v)

theorem getFromDoubleMap_set {β : Type} (m : JMap (JMap β)) (i u i' u' : String) (v : β) :
    getFromDoubleMap (setInDoubleMap m i u v) i' u' =
      if i' = i ∧ u' = u then some v else getFromDoubleMap m i' u' := by
  unfold getFromDoubleMap setInDoubleMap
  rw [JMap.get_set]
  by_cases hi : i' = i
  · subst hi
    simp only [if_pos rfl, eq_self_iff_true, if_true, true_and, Option.some_bind]
    rw [JMap.get_set]
    by_cases hu : u' = u
    · simp [hu]
    · simp only [if_neg hu]
      cases hmi : JMap.get m i' with
      | none => simp [JMap.get]
      | some im => simp
  · simp [hi]

/-- Source `getAnyFromUrl` on the read-side data cache: first instance map
holding a non-undefined entry for the url wins; undefined otherwise. -/
def getAnyFromUrl : JMap (JMap Val) → String → Val
  | [], _ => Val.undef
  | p :: rest, url =>
    if (JMap.get p.2 url).getD Val.undef ≠ Val.undef
    then (JMap.get p.2 url).getD Val.undef
    else getAnyFromUrl rest url

/-- Source `getAllFromUrl` collects the registered callbacks for a url; a
stored callback is identified by the instance it was registered under, so
the model returns the owning instance ids, in map iteration order. -/
def instancesForUrl {β : Type} (m : JMap (JMap β)) (url : String) : List String :=
  m.filterMap (fun p => if (JMap.get p.2 url).isSome then some p.1 else none)

/-- The process-wide module-level maps of the source file. -/
structure CacheState where
  getTriggerMap : JMap (JMap Unit)
  getSetDataMap : JMap (JMap Unit)
  getDataMap : JMap (JMap Val)
  setDataMap : JMap (JMap Val)
  getEpochMap : JMap (JMap Nat)
  setEpochMap : JMap (JMap Nat)

/-- State with every map empty. -/
def emptyState : CacheState :=
  { getTriggerMap := [], getSetDataMap := [], getDataMap := [],
    setDataMap := [], getEpochMap := [], setEpochMap := [] }

/-- Source `clearCache`: clears `getTriggerMap`, `getSetDataMap`, `getDataMap`,
`getEpochMap` and `setEpochMap` (and, notably, no other map). -/
def clearCache (st : CacheState) : CacheState :=
  { st with
    getTriggerMap := [], getSetDataMap := [], getDataMap := [],
    getEpochMap := [], setEpochMap := [] }

/-- Source `incrementGetEpoch`: read the counter for `(instanceId, url)`
(defaulting to 0), add one, store it back, return the new value. -/
def incrementGetEpoch (instanceId url : String) (st : CacheState) : Nat × CacheState :=
  let epoch := (getFromDoubleMap st.getEpochMap instanceId url).getD 0 + 1
  (epoch, { st with getEpochMap := setInDoubleMap st.getEpochMap instanceId url epoch })

/-- Source `incrementSetEpoch`: same as `incrementGetEpoch` on the write ledger. -/
def incrementSetEpoch (instanceId url : String) (st : CacheState) : Nat × CacheState :=
  let epoch := (getFromDoubleMap st.setEpochMap instanceId url).getD 0 + 1
  (epoch, { st with setEpochMap := setInDoubleMap st.setEpochMap instanceId url epoch })

/-- Optimistic-data option: a literal value, or an updater function of the
current value and the request body (`typeof optimisticData === 'function'`). -/
inductive OptData where
  | value (v : Val)
  | fn (f : Val → Val → Val)

/-- JS truthiness of the `optimisticData` option: functions are truthy,
values by `truthy`, absent is falsy. -/
def OptData.isTruthy : OptData → Bool
  | .value v => truthy v
  | .fn _ => true

/-- Truthiness of an optional `optimisticData` (`if (opts.optimisticData)`). -/
def optDataTruthy : Option OptData → Bool
  | none => false
  | some od => od.isTruthy

/-- Observable calls emitted by an operation: pushes to registered `setData`
callbacks, calls to registered `trigger` callbacks, and the `setTimeout` retry. -/
inductive Effect where
  | setDataPush (instanceId url : String) (arg : OptData)
  | triggerCall (instanceId url : String)
  | scheduleRetry (instanceId url : String) (delayMs : Nat)

/-- Per-hook React state of `useGet`. -/
structure GetHookState where
  data : Val
  isGetting : Bool
  error : Option String

/-- Per-hook React state of `usePost`. -/
structure PostHookState where
  data : Val
  isPosting : Bool
  error : Option String

/-- Percent-encode one byte as in `application/x-www-form-urlencoded`. -/
def hexDigit (n : Nat) : Char :=
  if n < 10 then Char.ofNat (48 + n) else Char.ofNat (55 + n)

/-- Percent-escape of a byte. -/
def hexByte (b : UInt8) : String :=
  String.singleton (hexDigit (b.toNat / 16)) ++ String.singleton (hexDigit (b.toNat % 16))

/-- `URLSearchParams` form-encoding of one character. -/
def formEncodeChar (c : Char) : String :=
  if c.isAlphanum || c = '*' || c = '-' || c = '.' || c = '_' then String.singleton c
  else if c = ' ' then "+"
  else String.join (((String.singleton c).toUTF8.toList).map (fun b => "%" ++ hexByte b))

/-- `URLSearchParams` form-encoding of a component string. -/
def formEncode (s : String) : String :=
  String.join (s.toList.map formEncodeChar)

/-- `new URLSearchParams(record).toString()`: ampersand-joined
`key=value` pairs in the record's insertion order. -/
def encodeQuery (q : List (String × String)) : String :=
  String.intercalate "&" (q.map (fun p => formEncode p.1 ++ "=" ++ formEncode p.2))

/-- Effective url of `useGet` (and of a `trigger`): the address, extended
with the serialized query parameters when a query object is present. -/
def effectiveUrl (url : String) (query : Option (List (String × String))) : String :=
  match query with
  | some q => url ++ "?" ++ encodeQuery q
  | none => url

/-- Initial React state of a `useGet` render: with `keepPreviousData`, seed
`data` from any instance's cached value for the effective url (`?? null`),
else null; `isGetting` starts as `!data`. Returns the effective url too. -/
def useGetInit (url : String) (query : Option (List (String × String)))
    (keepPreviousData : Bool) (st : CacheState) : String × GetHookState :=
  let u := effectiveUrl url query
  let previousData := if keepPreviousData then getAnyFromUrl st.getDataMap u else Val.undef
  let d := if previousData = Val.undef ∨ previousData = Val.vnull then Val.vnull
           else previousData
  (u, { data := d, isGetting := ! truthy d, error := none })

/-- Registration side effect of a `useGet` render: store the hook's
`trigger` and `setData` under `(instanceId, url)` in both registries. -/
def registerGet (instanceId url : String) (st : CacheState) : CacheState :=
  { st with
    getTriggerMap := setInDoubleMap st.getTriggerMap instanceId url ()
    getSetDataMap := setInDoubleMap st.getSetDataMap instanceId url () }

/-- Start of `trigger` (up to the `await`): mint a fresh read epoch for
`(instanceId, url)`; without `keepPreviousData` set `isGetting` true. -/
def triggerStart (instanceId url : String) (keepPreviousData : Bool)
    (st : CacheState) (h : GetHookState) : Nat × CacheState × GetHookState :=
  let p := incrementGetEpoch instanceId url st
  (p.1, p.2, if keepPreviousData then h else { h with isGetting := true })

/-- Resolution of `trigger` after the awaited getter settles: abort when the
current read epoch for `(instanceId, url)` differs from the captured one;
on success store and publish the result; on failure publish the error and,
when the hook's data is falsy, schedule one retry after 1000 ms. -/
def triggerResolve (instanceId url : String) (epoch : Nat) (st : CacheState)
    (h : GetHookState) (outcome : Except String Val) :
    CacheState × GetHookState × List Effect :=
  match outcome with
  | .ok result =>
    if getFromDoubleMap st.getEpochMap instanceId url ≠ some epoch then (st, h, [])
    else
      ({ st with getDataMap := setInDoubleMap st.getDataMap instanceId url result },
       { h with data := result, error := none, isGetting := false }, [])
  | .error err =>
    if getFromDoubleMap st.getEpochMap instanceId url ≠ some epoch then (st, h, [])
    else
      (st, { h with error := some err, isGetting := false },
       if truthy h.data then [] else [Effect.scheduleRetry instanceId url 1000])

/-- Source `triggerGet`: extend the url with query parameters when present,
then call the registered trigger of every instance for that url. -/
def triggerGet (url : String) (query : Option (List (String × String)))
    (st : CacheState) : List Effect :=
  let u := effectiveUrl url query
  (instancesForUrl st.getTriggerMap u).map (fun j => Effect.triggerCall j u)

/-- Options of `usePost` / `post`. Every field is optional, matching the JS
object; `useResponseData` distinguishes absent from explicit false. -/
structure PostOpts where
  query : Option (List (String × String))
  getUrl : Option String
  getterQuery : Option (List (String × String))
  optimisticData : Option OptData
  useResponseData : Option Bool

/-- Source `Object.assign({}, options, extraOptions)`: a field of
`extraOptions` that is present overrides the hook-level default. -/
def mergeOpts (base extra : PostOpts) : PostOpts :=
  { query := extra.query <|> base.query
    getUrl := extra.getUrl <|> base.getUrl
    getterQuery := extra.getterQuery <|> base.getterQuery
    optimisticData := extra.optimisticData <|> base.optimisticData
    useResponseData := extra.useResponseData <|> base.useResponseData }

/-- JS truthiness of the optional `getUrl` string (`if (opts.getUrl)`):
absent and the empty string are falsy. -/
def strOptTruthy : Option String → Bool
  | none => false
  | some s => s != ""

/-- JS truthiness of the optional `useResponseData` flag. -/
def boolOptTruthy : Option Bool → Bool
  | none => false
  | some b => b

/-- Effective post url (`currentUrl`): the hook address extended with the
serialized `query` when one is present. -/
def effPostUrl (url : String) (opts : PostOpts) : String :=
  match opts.query with
  | some q => url ++ "?" ++ encodeQuery q
  | none => url

/-- Effective related read url (`currentGetUrl`): `opts.getUrl`, extended
with the serialized `getterQuery` when both `getUrl` and `getterQuery`
are truthy, as in the source's `if (opts.getUrl && opts.getterQuery)`. -/
def effGetUrl (opts : PostOpts) : Option String :=
  match opts.getUrl with
  | none => none
  | some g =>
    match opts.getterQuery with
    | some gq => if g != "" then some (g ++ "?" ++ encodeQuery gq) else some g
    | none => some g

/-- Apply the `optimisticData` option: a literal value replaces the data, an
updater function receives the current value and the request body. -/
def applyOptimistic (od : OptData) (current body : Val) : Val :=
  match od with
  | .value v => v
  | .fn f => f current body

/-- Start of `post` (up to the `await`), over the already-merged options
(the source merges `options` and `extraOptions` first; the epoch increment
does not depend on the options). Mints a fresh write epoch for
`(instanceId, url)` — the hook's base address. With truthy
`optimisticData`: update this hook's `data` via the updater and, when
`getUrl` is truthy, push the raw `optimisticData` to every instance
registered for the effective read url. Otherwise set `isPosting` true. -/
def postStart (instanceId url : String) (st : CacheState) (h : PostHookState)
    (opts : PostOpts) (body : Val) :
    Nat × CacheState × PostHookState × List Effect :=
  let p := incrementSetEpoch instanceId url st
  let cg := (effGetUrl opts).getD ""
  match opts.optimisticData with
  | some od =>
    if od.isTruthy then
      let h1 := { h with data := applyOptimistic od h.data body }
      let effs :=
        if strOptTruthy opts.getUrl then
          (instancesForUrl p.2.getSetDataMap cg).map
            (fun j => Effect.setDataPush j cg od)
        else []
      (p.1, p.2, h1, effs)
    else (p.1, p.2, { h with isPosting := true }, [])
  | none => (p.1, p.2, { h with isPosting := true }, [])

/-- Instance ids known to the read-side data cache: the outer keys of
`getDataMap`, in iteration order. -/
def knownInstances (m : JMap (JMap Val)) : List String :=
  m.map Prod.fst

/-- The source's success loop `for ([instanceMapId] of getDataMap)
setInDoubleMap(getDataMap, instanceMapId, currentGetUrl, result)`:
overwrite the read cache entry at the url for each listed instance. -/
def overwriteAll (m : JMap (JMap Val)) (ids : List String) (url : String) (v : Val) :
    JMap (JMap Val) :=
  ids.foldl (fun acc j => setInDoubleMap acc j url v) m

/-- The source's failure rollback loop: for each entry of `getDataMap`, in
iteration order, read that instance's own saved value for the read url and
its registered `setData`; when the callback exists and the saved value is
not undefined, push the saved value to that instance. -/
def rollbackEffects (st : CacheState) (cg : String) : List Effect :=
  st.getDataMap.filterMap (fun p =>
    let savedData := (JMap.get p.2 cg).getD Val.undef
    if (getFromDoubleMap st.getSetDataMap p.1 cg).isSome ∧ savedData ≠ Val.undef then
      some (Effect.setDataPush p.1 cg (OptData.value savedData))
    else none)

/-- Resolution of `post` after the awaited poster settles: abort when the
current write epoch for `(instanceId, url)` — the hook's base address —
differs from the captured one. On success publish and cache the response,
then, when `getUrl` is truthy, either push the response and overwrite the
read cache for every known instance (`useResponseData`) or call every
registered trigger. On failure publish the error and, when truthy
`optimisticData` was applied, restore this hook's `data` from the write
cache and, when `getUrl` is truthy, roll every instance back to its own
saved read-cache value. -/
def postResolve (instanceId url : String) (epoch : Nat) (opts : PostOpts)
    (st : CacheState) (h : PostHookState) (outcome : Except String Val) :
    CacheState × PostHookState × List Effect :=
  let cg := (effGetUrl opts).getD ""
  match outcome with
  | .ok result =>
    if getFromDoubleMap st.setEpochMap instanceId url ≠ some epoch then (st, h, [])
    else
      let st1 := { st with setDataMap := setInDoubleMap st.setDataMap instanceId url result }
      let h1 := { h with data := result, error := none, isPosting := false }
      if ¬ strOptTruthy opts.getUrl then (st1, h1, [])
      else if boolOptTruthy opts.useResponseData then
        ({ st1 with getDataMap :=
             overwriteAll st1.getDataMap (knownInstances st1.getDataMap) cg result },
         h1,
         (instancesForUrl st1.getSetDataMap cg).map
           (fun j => Effect.setDataPush j cg (OptData.value result)))
      else
        (st1, h1,
         (instancesForUrl st1.getTriggerMap cg).map (fun j => Effect.triggerCall j cg))
  | .error err =>
    if getFromDoubleMap st.setEpochMap instanceId url ≠ some epoch then (st, h, [])
    else
      let h1 := { h with error := some err, isPosting := false }
      match opts.optimisticData with
      | some od =>
        if od.isTruthy then
          let h2 := { h1 with
            data := (getFromDoubleMap st.setDataMap instanceId url).getD Val.undef }
          if strOptTruthy opts.getUrl then (st, h2, rollbackEffects st cg)
          else (st, h2, [])
        else (st, h1, [])
      | none => (st, h1, [])

/-- One cooperative step of the system: each constructor is one of the
operations of the source that touches the process-wide maps. -/
inductive Op where
  | registerOp (instanceId url : String)
  | triggerStartOp (instanceId url : String) (keepPreviousData : Bool) (h : GetHookState)
  | triggerResolveOp (instanceId url : String) (epoch : Nat) (h : GetHookState)
      (outcome : Except String Val)
  | postStartOp (instanceId url : String) (h : PostHookState) (opts : PostOpts) (body : Val)
  | postResolveOp (instanceId url : String) (epoch : Nat) (opts : PostOpts)
      (h : PostHookState) (outcome : Except String Val)
  | clearCacheOp

/-- The cache-state component of running one operation. -/
def applyOp : Op → CacheState → CacheState
  | .registerOp i u, st => registerGet i u st
  | .triggerStartOp i u kp h, st => (triggerStart i u kp st h).2.1
  | .triggerResolveOp i u e h oc, st => (triggerResolve i u e st h oc).1
  | .postStartOp i u h opts body, st => (postStart i u st h opts body).2.1
  | .postResolveOp i u e opts h oc, st => (postResolve i u e opts st h oc).1
  | .clearCacheOp, st => clearCache st

/-! Helper lemmas shared by the claim theorems. -/

theorem triggerResolve_getEpochMap (i u : String) (e : Nat) (st : CacheState)
    (h : GetHookState) (oc : Except String Val) :
    (triggerResolve i u e st h oc).1.getEpochMap = st.getEpochMap ∧
    (triggerResolve i u e st h oc).1.setEpochMap = st.setEpochMap := by
  cases oc <;> simp only [triggerResolve] <;> split <;> simp

theorem postResolve_epochMaps (i u : String) (e : Nat) (opts : PostOpts)
    (st : CacheState) (h : PostHookState) (oc : Except String Val) :
    (postResolve i u e opts st h oc).1.getEpochMap = st.getEpochMap ∧
    (postResolve i u e opts st h oc).1.setEpochMap = st.setEpochMap := by
  cases oc with
  | ok result =>
    simp only [postResolve]
    split
    · simp
    · split
      · simp
      · split
        · simp [overwriteAll]
        · simp
  | error err =>
    simp only [postResolve]
    split
    · simp
    · cases hod : opts.optimisticData with
      | none => simp
      | some od =>
        simp only []
        split
        · split <;> simp
        · simp

theorem postStart_state (i u : String) (st : CacheState) (h : PostHookState)
    (opts : PostOpts) (body : Val) :
    (postStart i u st h opts body).2.1 = (incrementSetEpoch i u st).2 ∧
    (postStart i u st h opts body).1 = (incrementSetEpoch i u st).1 := by
  simp only [postStart]
  cases hod : opts.optimisticData with
  | none => simp
  | some od =>
    simp only []
    split <;> simp

/-- C1: an in-flight read or write operation captures the epoch minted at
its start, and when the injected getter/poster resolves (with a value or an
error) while the current ledger entry for the same instance and key
differs from the captured epoch, the resolution changes no state at all:
no data, error or flag update, no cache write, no retry, no propagation. -/
theorem stale_epoch_resolution_noop
    (i u : String) (eg ep : Nat) (st st2 : CacheState) (kp : Bool)
    (hg hg2 : GetHookState) (hp hp2 : PostHookState) (opts opts2 : PostOpts)
    (body : Val) (ocg ocp : Except String Val)
    (hG : getFromDoubleMap st.getEpochMap i u ≠ some eg)
    (hP : getFromDoubleMap st.setEpochMap i u ≠ some ep) :
    getFromDoubleMap (triggerStart i u kp st2 hg2).2.1.getEpochMap i u
        = some (triggerStart i u kp st2 hg2).1 ∧
    getFromDoubleMap (postStart i u st2 hp2 opts2 body).2.1.setEpochMap i u
        = some (postStart i u st2 hp2 opts2 body).1 ∧
    triggerResolve i u eg st hg ocg = (st, hg, []) ∧
    postResolve i u ep opts st hp ocp = (st, hp, []) := by
  refine ⟨?_, ?_, ?_, ?_⟩
  · simp [triggerStart, incrementGetEpoch, getFromDoubleMap_set]
  · rcases postStart_state i u st2 hp2 opts2 body with ⟨h1, h2⟩
    rw [h1, h2]
    simp [incrementSetEpoch, getFromDoubleMap_set]
  · cases ocg <;> simp [triggerResolve, hG]
  · cases ocp <;> simp [postResolve, hP]

/-- C1 witness: a concrete stale resolution (captured epoch 1, ledger empty)
leaves a concrete state, both hook states and the effect list untouched. -/
theorem stale_epoch_resolution_noop_witness :
    triggerResolve "inst1" "/g" 1 emptyState
        { data := Val.vnull, isGetting := true, error := none } (Except.ok (Val.vint 3))
      = (emptyState, { data := Val.vnull, isGetting := true, error := none }, []) ∧
    postResolve "inst1" "/p" 1
        { query := none, getUrl := none, getterQuery := none,
          optimisticData := none, useResponseData := none }
        emptyState { data := Val.vnull, isPosting := true, error := none }
        (Except.error "boom")
      = (emptyState, { data := Val.vnull, isPosting := true, error := none }, []) := by
  have h := stale_epoch_resolution_noop "inst1" "/g" 1 1 emptyState emptyState false
    { data := Val.vnull, isGetting := true, error := none }
    { data := Val.vnull, isGetting := true, error := none }
    { data := Val.vnull, isPosting := true, error := none }
    { data := Val.vnull, isPosting := true, error := none }
    { query := none, getUrl := none, getterQuery := none,
      optimisticData := none, useResponseData := none }
    { query := none, getUrl := none, getterQuery := none,
      optimisticData := none, useResponseData := none }
    Val.vnull (Except.ok (Val.vint 3)) (Except.error "boom")
    (by simp [emptyState, getFromDoubleMap, JMap.get])
    (by simp [emptyState, getFromDoubleMap, JMap.get])
  exact ⟨h.2.2.1, by
    have hP := h.2.2.2
    exact hP⟩

/-- C2 (amended): `clearCache` empties the trigger registry, the setData
registry, the read-side data cache and both epoch ledgers, but leaves the
write-side last-confirmed-response cache (`setDataMap`) untouched. -/
theorem clearCache_clears_all_but_write_cache (st : CacheState) :
    (clearCache st).getTriggerMap = [] ∧ (clearCache st).getSetDataMap = [] ∧
    (clearCache st).getDataMap = [] ∧ (clearCache st).getEpochMap = [] ∧
    (clearCache st).setEpochMap = [] ∧ (clearCache st).setDataMap = st.setDataMap :=
  ⟨rfl, rfl, rfl, rfl, rfl, rfl⟩

/-- State with a single write-side cache entry, everything else empty. -/
def c2State : CacheState :=
  { emptyState with setDataMap := [("inst1", [("/k", Val.vint 7)])] }

/-- C2 counterexample: after `clearCache` on a state holding a write-side
cached response, that cached value is still observable, so not every
process-wide map is empty afterwards. -/
theorem clearCache_keeps_write_cache_entry :
    (clearCache c2State).setDataMap ≠ [] ∧
    getFromDoubleMap (clearCache c2State).setDataMap "inst1" "/k"
      = some (Val.vint 7) := by
  exact ⟨by decide, rfl⟩

/-- Post options with query parameters and nothing else. -/
def c3Opts : PostOpts :=
  { query := some [("a", "1")], getUrl := none, getterQuery := none,
    optimisticData := none, useResponseData := none }

/-- State whose write ledger holds epoch 1 at the query-extended post key
and epoch 2 at the base address. -/
def c3Resolved : CacheState :=
  { emptyState with setEpochMap := [("inst1", [("/p?a=1", 1), ("/p", 2)])] }

/-- C3 counterexample: with query parameters configured the effective post
key is the extended address, yet the first `post` of a fresh instance
stores its fresh epoch under the base address and none under the post key;
and the resolution then commits although the ledger holds no entry at the
effective post key — so the staleness re-read also uses the base address,
not the effective key. -/
theorem post_epoch_not_at_post_key :
    effPostUrl "/p" c3Opts = "/p?a=1" ∧
    getFromDoubleMap
        (postStart "inst1" "/p" emptyState
          { data := Val.vnull, isPosting := false, error := none } c3Opts Val.vnull).2.1.setEpochMap
        "inst1" "/p?a=1" = none ∧
    getFromDoubleMap
        (postStart "inst1" "/p" emptyState
          { data := Val.vnull, isPosting := false, error := none } c3Opts Val.vnull).2.1.setEpochMap
        "inst1" "/p" = some 1 ∧
    (postResolve "inst1" "/p" 1 c3Opts
        (postStart "inst1" "/p" emptyState
          { data := Val.vnull, isPosting := false, error := none } c3Opts Val.vnull).2.1
        { data := Val.vnull, isPosting := true, error := none }
        (Except.ok (Val.vint 7))).2.1.data = Val.vint 7 :=
  ⟨rfl, rfl, rfl, rfl⟩

/-- C3 (amended): for every post call the fresh write epoch is obtained for
(instance, base address) — the hook's address without query extension,
independent of the configured query parameters — and the same base address
is the one re-read for the staleness comparison when the post resolves:
a mismatch there aborts, a match there commits. -/
theorem post_epoch_uses_base_address
    (i u : String) (st : CacheState) (h : PostHookState) (opts : PostOpts) (body : Val) :
    (postStart i u st h opts body).1
        = (getFromDoubleMap st.setEpochMap i u).getD 0 + 1 ∧
    getFromDoubleMap (postStart i u st h opts body).2.1.setEpochMap i u
        = some ((postStart i u st h opts body).1) ∧
    (∀ epoch h' st' oc, getFromDoubleMap st'.setEpochMap i u ≠ some epoch →
      postResolve i u epoch opts st' h' oc = (st', h', [])) ∧
    (∀ epoch h' st' err, getFromDoubleMap st'.setEpochMap i u = some epoch →
      (postResolve i u epoch opts st' h' (Except.error err)).2.1.error = some err) := by
  rcases postStart_state i u st h opts body with ⟨h1, h2⟩
  refine ⟨?_, ?_, ?_, ?_⟩
  · rw [h2]; rfl
  · rw [h1, h2]
    simp [incrementSetEpoch, getFromDoubleMap_set]
  · intro epoch h' st' oc hst
    cases oc <;> simp [postResolve, hst]
  · intro epoch h' st' err hst
    simp only [postResolve, hst]
    simp only [ne_eq, not_true_eq_false, if_false, ite_false, not_not]
    cases hod : opts.optimisticData with
    | none => simp
    | some od =>
      simp only []
      split
      · split <;> simp
      · simp

/-- C3 witness: on a concrete state with one prior epoch, the post start
returns and stores epoch 2 at the base address, and a matching epoch at the
base address lets a failing resolution publish its error. -/
theorem post_epoch_uses_base_address_witness :
    (postStart "inst1" "/p" c3Resolved
        { data := Val.vnull, isPosting := false, error := none } c3Opts Val.vnull).1 = 3 ∧
    (postResolve "inst1" "/p" 2 c3Opts c3Resolved
        { data := Val.vnull, isPosting := false, error := none }
        (Except.error "oops")).2.1.error = some "oops" := by
  have h := post_epoch_uses_base_address "inst1" "/p" c3Resolved
    { data := Val.vnull, isPosting := false, error := none } c3Opts Val.vnull
  refine ⟨?_, ?_⟩
  · rw [h.1]; rfl
  · exact h.2.2.2 2
      { data := Val.vnull, isPosting := false, error := none } c3Resolved "oops" rfl

/-- State whose read ledger holds epoch 1 for the one in-flight trigger. -/
def c6State : CacheState :=
  { emptyState with getEpochMap := [("inst1", [("/g", 1)])] }

/-- Hook state holding the fetched value 0: data is held but falsy. -/
def c6Hook : GetHookState :=
  { data := Val.vint 0, isGetting := false, error := none }

/-- C6 counterexample: a non-stale failing trigger on an instance that holds
the (falsy) data value 0 still schedules a retry, although the instance
does hold data — the code tests `!data` (JS truthiness), not absence. -/
theorem trigger_retry_despite_held_data :
    c6Hook.data ≠ Val.vnull ∧ c6Hook.data ≠ Val.undef ∧
    (triggerResolve "inst1" "/g" 1 c6State c6Hook (Except.error "netfail")).2.2
      = [Effect.scheduleRetry "inst1" "/g" 1000] :=
  ⟨by decide, by decide, rfl⟩

/-- C6 (amended): on a non-stale read failure the error is published,
`isGetting` is cleared, the maps are untouched, and exactly one retry of
`trigger` is scheduled after the fixed 1000 ms delay if and only if the
instance's current data is falsy under JS truthiness (absent, null, false,
0 or the empty string) — not if and only if no data is held. -/
theorem trigger_failure_spec
    (i u : String) (epoch : Nat) (st : CacheState) (h : GetHookState) (err : String)
    (hfresh : getFromDoubleMap st.getEpochMap i u = some epoch) :
    triggerResolve i u epoch st h (Except.error err) =
      (st, { h with error := some err, isGetting := false },
        if truthy h.data then [] else [Effect.scheduleRetry i u 1000]) := by
  simp [triggerResolve, hfresh]

/-- C6 witness: a concrete non-stale failure with null data publishes the
error, clears the flag and schedules exactly one retry after 1000 ms. -/
theorem trigger_failure_spec_witness :
    triggerResolve "inst1" "/g" 1 c6State
        { data := Val.vnull, isGetting := true, error := none } (Except.error "x")
      = (c6State, { data := Val.vnull, isGetting := false, error := some "x" },
         [Effect.scheduleRetry "inst1" "/g" 1000]) := by
  have h := trigger_failure_spec "inst1" "/g" 1 c6State
    { data := Val.vnull, isGetting := true, error := none } "x" rfl
  simpa using h

/-- C9: a configured `optimisticData` that is a falsy value (0, empty
string, false, null, undefined) behaves exactly as if the option were not
configured: the post start applies no optimistic update to the hook or to
read-key subscribers and sets `isPosting` true, and every resolution — in
particular the failure path, which then performs no rollback — equals the
resolution with the option absent. -/
theorem falsy_optimistic_like_none
    (i u : String) (st : CacheState) (h : PostHookState) (opts : PostOpts)
    (body v : Val)
    (hv : opts.optimisticData = some (OptData.value v))
    (hfalsy : truthy v = false) :
    postStart i u st h opts body
        = postStart i u st h { opts with optimisticData := none } body ∧
    (postStart i u st h opts body).2.2.1 = { h with isPosting := true } ∧
    (postStart i u st h opts body).2.2.2 = [] ∧
    (∀ epoch st' h' oc,
      postResolve i u epoch opts st' h' oc
        = postResolve i u epoch { opts with optimisticData := none } st' h' oc) := by
  have hstart : postStart i u st h opts body
      = postStart i u st h { opts with optimisticData := none } body := by
    simp [postStart, hv, OptData.isTruthy, hfalsy]
  refine ⟨hstart, ?_, ?_, ?_⟩
  · simp [postStart, hv, OptData.isTruthy, hfalsy]
  · simp [postStart, hv, OptData.isTruthy, hfalsy]
  · intro epoch st' h' oc
    have hcg : effGetUrl { opts with optimisticData := none } = effGetUrl opts := rfl
    cases oc with
    | ok result => simp [postResolve, hcg]
    | error err => simp [postResolve, hcg, hv, OptData.isTruthy, hfalsy]

/-- C9 witness: with `optimisticData` equal to the falsy value 0 a concrete
post start sets `isPosting`, pushes nothing, and a concrete non-stale
failure performs no rollback and no effects. -/
theorem falsy_optimistic_like_none_witness :
    (postStart "inst1" "/p" emptyState
        { data := Val.vnull, isPosting := false, error := none }
        { query := none, getUrl := some "/g", getterQuery := none,
          optimisticData := some (OptData.value (Val.vint 0)), useResponseData := none }
        (Val.vstr "body")).2.2.1
      = { data := Val.vnull, isPosting := true, error := none } ∧
    (postStart "inst1" "/p" emptyState
        { data := Val.vnull, isPosting := false, error := none }
        { query := none, getUrl := some "/g", getterQuery := none,
          optimisticData := some (OptData.value (Val.vint 0)), useResponseData := none }
        (Val.vstr "body")).2.2.2 = [] := by
  have h := falsy_optimistic_like_none "inst1" "/p" emptyState
    { data := Val.vnull, isPosting := false, error := none }
    { query := none, getUrl := some "/g", getterQuery := none,
      optimisticData := some (OptData.value (Val.vint 0)), useResponseData := none }
    (Val.vstr "body") (Val.vint 0) rfl rfl
  exact ⟨h.2.1, h.2.2.1⟩

/-- C10: when a post that applied a truthy optimistic update fails with a
non-stale epoch and the write-side cache holds no confirmed response for
this instance under the address the cache is keyed by (the hook's base
address, which is the post key whenever no query parameters are
configured), the hook's data is set to the cache's missing-value result,
undefined — neither kept optimistic nor restored. -/
theorem rollback_missing_cache_undefined
    (i u : String) (epoch : Nat) (opts : PostOpts) (st : CacheState)
    (h : PostHookState) (err : String)
    (hfresh : getFromDoubleMap st.setEpochMap i u = some epoch)
    (hopt : optDataTruthy opts.optimisticData = true)
    (hnone : getFromDoubleMap st.setDataMap i u = none) :
    (postResolve i u epoch opts st h (Except.error err)).2.1.data = Val.undef := by
  simp only [postResolve, hfresh]
  cases hod : opts.optimisticData with
  | none => rw [hod] at hopt; simp [optDataTruthy] at hopt
  | some od =>
    rw [hod] at hopt
    simp only [optDataTruthy] at hopt
    simp only [ne_eq, not_true_eq_false, if_false, hopt, if_true, hnone]
    split <;> simp [hnone, hopt]

/-- C10 witness: a concrete optimistic post into an empty write cache that
fails non-stale leaves the hook data undefined. -/
theorem rollback_missing_cache_undefined_witness :
    (postResolve "inst1" "/p" 1
        { query := none, getUrl := none, getterQuery := none,
          optimisticData := some (OptData.value (Val.vint 9)), useResponseData := none }
        { emptyState with setEpochMap := [("inst1", [("/p", 1)])] }
        { data := Val.vint 9, isPosting := false, error := none }
        (Except.error "fail")).2.1.data = Val.undef := by
  exact rollback_missing_cache_undefined "inst1" "/p" 1
    { query := none, getUrl := none, getterQuery := none,
      optimisticData := some (OptData.value (Val.vint 9)), useResponseData := none }
    { emptyState with setEpochMap := [("inst1", [("/p", 1)])] }
    { data := Val.vint 9, isPosting := false, error := none } "fail" rfl rfl rfl

/-- C7: each epoch ledger entry, keyed by (instance, url, kind), is bumped
by exactly one at each operation start — `incrementGetEpoch` and
`incrementSetEpoch` read the counter (default 0), store back its increment
and return the new value, so consecutive calls return consecutive integers
starting at 1 — and no operation of the system other than the full cache
clear lowers or removes an existing counter. -/
theorem epoch_ledger_monotone :
    (∀ i u st,
      (incrementGetEpoch i u st).1
          = (getFromDoubleMap st.getEpochMap i u).getD 0 + 1 ∧
      getFromDoubleMap (incrementGetEpoch i u st).2.getEpochMap i u
          = some ((incrementGetEpoch i u st).1)) ∧
    (∀ i u st,
      (incrementSetEpoch i u st).1
          = (getFromDoubleMap st.setEpochMap i u).getD 0 + 1 ∧
      getFromDoubleMap (incrementSetEpoch i u st).2.setEpochMap i u
          = some ((incrementSetEpoch i u st).1)) ∧
    (∀ i u st, (incrementGetEpoch i u (incrementGetEpoch i u st).2).1
        = (incrementGetEpoch i u st).1 + 1) ∧
    (∀ i u st, (incrementSetEpoch i u (incrementSetEpoch i u st).2).1
        = (incrementSetEpoch i u st).1 + 1) ∧
    (∀ i u, (incrementGetEpoch i u emptyState).1 = 1) ∧
    (∀ op, op ≠ Op.clearCacheOp → ∀ st i u e,
      (getFromDoubleMap st.getEpochMap i u = some e →
        ∃ e2, getFromDoubleMap (applyOp op st).getEpochMap i u = some e2 ∧ e ≤ e2) ∧
      (getFromDoubleMap st.setEpochMap i u = some e →
        ∃ e2, getFromDoubleMap (applyOp op st).setEpochMap i u = some e2 ∧ e ≤ e2)) := by
  refine ⟨?_, ?_, ?_, ?_, ?_, ?_⟩
  · intro i u st
    exact ⟨rfl, by simp [incrementGetEpoch, getFromDoubleMap_set]⟩
  · intro i u st
    exact ⟨rfl, by simp [incrementSetEpoch, getFromDoubleMap_set]⟩
  · intro i u st
    simp [incrementGetEpoch, getFromDoubleMap_set]
  · intro i u st
    simp [incrementSetEpoch, getFromDoubleMap_set]
  · intro i u
    rfl
  · intro op hop st i u e
    cases op with
    | clearCacheOp => exact absurd rfl hop
    | registerOp i0 u0 =>
      exact ⟨fun hsome => ⟨e, hsome, le_refl e⟩, fun hsome => ⟨e, hsome, le_refl e⟩⟩
    | triggerStartOp i0 u0 kp h0 =>
      refine ⟨?_, fun hsome => ⟨e, hsome, le_refl e⟩⟩
      intro hsome
      simp only [applyOp, triggerStart, incrementGetEpoch]
      rw [getFromDoubleMap_set]
      by_cases hk : i = i0 ∧ u = u0
      · rw [if_pos hk]
        rcases hk with ⟨h1, h2⟩
        subst h1
        subst h2
        refine ⟨e + 1, ?_, Nat.le_succ e⟩
        rw [hsome]
        rfl
      · rw [if_neg hk]
        exact ⟨e, hsome, le_refl e⟩
    | triggerResolveOp i0 u0 e0 h0 oc =>
      rcases triggerResolve_getEpochMap i0 u0 e0 st h0 oc with ⟨hG, hS⟩
      constructor
      · intro hsome
        refine ⟨e, ?_, le_refl e⟩
        simp only [applyOp, hG]
        exact hsome
      · intro hsome
        refine ⟨e, ?_, le_refl e⟩
        simp only [applyOp, hS]
        exact hsome
    | postStartOp i0 u0 h0 opts body =>
      rcases postStart_state i0 u0 st h0 opts body with ⟨hstate, _⟩
      constructor
      · intro hsome
        refine ⟨e, ?_, le_refl e⟩
        simp only [applyOp, hstate, incrementSetEpoch]
        exact hsome
      · intro hsome
        simp only [applyOp, hstate, incrementSetEpoch]
        rw [getFromDoubleMap_set]
        by_cases hk : i = i0 ∧ u = u0
        · rw [if_pos hk]
          rcases hk with ⟨h1, h2⟩
          subst h1
          subst h2
          refine ⟨e + 1, ?_, Nat.le_succ e⟩
          rw [hsome]
          rfl
        · rw [if_neg hk]
          exact ⟨e, hsome, le_refl e⟩
    | postResolveOp i0 u0 e0 opts h0 oc =>
      rcases postResolve_epochMaps i0 u0 e0 opts st h0 oc with ⟨hG, hS⟩
      constructor
      · intro hsome
        refine ⟨e, ?_, le_refl e⟩
        simp only [applyOp, hG]
        exact hsome
      · intro hsome
        refine ⟨e, ?_, le_refl e⟩
        simp only [applyOp, hS]
        exact hsome

/-- C7 witness: from the empty state the first read epoch is 1, and after a
concrete registration operation a concrete existing counter of 5 is still
at least 5. -/
theorem epoch_ledger_monotone_witness :
    (incrementGetEpoch "inst1" "/g" emptyState).1 = 1 ∧
    (∃ e2, getFromDoubleMap
        (applyOp (Op.registerOp "inst2" "/h")
          { emptyState with getEpochMap := [("inst1", [("/g", 5)])] }).getEpochMap
        "inst1" "/g" = some e2 ∧ 5 ≤ e2) := by
  refine ⟨epoch_ledger_monotone.2.2.2.2.1 "inst1" "/g", ?_⟩
  exact (epoch_ledger_monotone.2.2.2.2.2 (Op.registerOp "inst2" "/h")
    (fun hc => Op.noConfusion hc)
    { emptyState with getEpochMap := [("inst1", [("/g", 5)])] } "inst1" "/g" 5).1 rfl

/-! Lemmas about `getAnyFromUrl` for the initial-state claim. -/

theorem getAnyFromUrl_all_undef (m : JMap (JMap Val)) (u : String)
    (h : ∀ p ∈ m, (JMap.get p.2 u).getD Val.undef = Val.undef) :
    getAnyFromUrl m u = Val.undef := by
  induction m with
  | nil => rfl
  | cons p rest ih =>
    have hp := h p (List.mem_cons_self p rest)
    simp only [getAnyFromUrl, hp, ne_eq, not_true_eq_false, if_false, ite_false]
    exact ih (fun q hq => h q (List.mem_cons_of_mem p hq))

theorem getAnyFromUrl_first (pre : JMap (JMap Val)) (j : String) (im : JMap Val)
    (rest : JMap (JMap Val)) (u : String)
    (hpre : ∀ p ∈ pre, (JMap.get p.2 u).getD Val.undef = Val.undef)
    (hv : (JMap.get im u).getD Val.undef ≠ Val.undef) :
    getAnyFromUrl (pre ++ (j, im) :: rest) u = (JMap.get im u).getD Val.undef := by
  induction pre with
  | nil => simp [getAnyFromUrl, hv]
  | cons p t ih =>
    have hp := hpre p (List.mem_cons_self p t)
    simp only [List.cons_append, getAnyFromUrl, hp, ne_eq, not_true_eq_false,
      if_false, ite_false]
    exact ih (fun q hq => hpre q (List.mem_cons_of_mem p hq))

/-- C8: the initial `useGet` data is null without `keepPreviousData`; with
it, the seed is the first non-undefined cached value found for the
effective url in the data cache's iteration order (null when none exists);
and in every case the initial loading flag is the negation of the initial
data's truthiness. -/
theorem useGet_initial_state
    (url : String) (q : Option (List (String × String))) (kp : Bool) (st : CacheState) :
    ((useGetInit url q kp st).2.isGetting
        = ! truthy (useGetInit url q kp st).2.data) ∧
    (kp = false → (useGetInit url q kp st).2.data = Val.vnull) ∧
    ((∀ p ∈ st.getDataMap,
        (JMap.get p.2 (effectiveUrl url q)).getD Val.undef = Val.undef) →
      (useGetInit url q kp st).2.data = Val.vnull) ∧
    (∀ pre j im rest, kp = true →
      st.getDataMap = pre ++ (j, im) :: rest →
      (∀ p ∈ pre, (JMap.get p.2 (effectiveUrl url q)).getD Val.undef = Val.undef) →
      (JMap.get im (effectiveUrl url q)).getD Val.undef ≠ Val.undef →
      (useGetInit url q kp st).2.data
        = (JMap.get im (effectiveUrl url q)).getD Val.undef) := by
  refine ⟨rfl, ?_, ?_, ?_⟩
  · intro hkp
    simp [useGetInit, hkp]
  · intro hall
    cases kp with
    | false => simp [useGetInit]
    | true => simp [useGetInit, getAnyFromUrl_all_undef st.getDataMap (effectiveUrl url q) hall]
  · intro pre j im rest hkp hsplit hpre hv
    subst hkp
    have hfirst := getAnyFromUrl_first pre j im rest (effectiveUrl url q) hpre hv
    simp only [useGetInit, if_true]
    rw [hsplit, hfirst]
    by_cases hnull : (JMap.get im (effectiveUrl url q)).getD Val.undef = Val.vnull
    · simp [hnull]
    · simp [hnull, hv]

/-- C8 witness: a second observer with `keepPreviousData` of a key cached
as 3 by instance B (instance A holds only an undefined entry) starts with
data 3 and no loading flag; without the flag it starts null and loading. -/
theorem useGet_initial_state_witness :
    (useGetInit "/k" none true
        { emptyState with
          getDataMap := [("A", [("/k", Val.undef)]), ("B", [("/k", Val.vint 3)])] }).2.data
      = Val.vint 3 ∧
    (useGetInit "/k" none false
        { emptyState with
          getDataMap := [("A", [("/k", Val.undef)]), ("B", [("/k", Val.vint 3)])] }).2.data
      = Val.vnull := by
  have h := useGet_initial_state "/k" none true
    { emptyState with
      getDataMap := [("A", [("/k", Val.undef)]), ("B", [("/k", Val.vint 3)])] }
  have h4 := h.2.2.2 [("A", [("/k", Val.undef)])] "B" [("/k", Val.vint 3)] []
    rfl rfl (by decide) (by decide)
  refine ⟨?_, ?_⟩
  · rw [h4]
    decide
  · have h2 := useGet_initial_state "/k" none false
      { emptyState with
        getDataMap := [("A", [("/k", Val.undef)]), ("B", [("/k", Val.vint 3)])] }
    exact h2.2.1 rfl

/-! Lemmas about propagation lists and the success-path cache overwrite. -/

theorem mem_instancesForUrl {β : Type} {m : JMap (JMap β)} {j u : String}
    (h : (getFromDoubleMap m j u).isSome) : j ∈ instancesForUrl m u := by
  unfold getFromDoubleMap at h
  cases hmj : JMap.get m j with
  | none => rw [hmj] at h; simp at h
  | some im =>
    rw [hmj] at h
    simp only [Option.some_bind] at h
    unfold instancesForUrl
    exact List.mem_filterMap.2 ⟨(j, im), JMap.get_mem hmj, by simp [h]⟩

theorem overwriteAll_get_notMem (ids : List String) (m : JMap (JMap Val))
    (u u' : String) (v : Val) (j : String) (hj : j ∉ ids) :
    getFromDoubleMap (overwriteAll m ids u v) j u' = getFromDoubleMap m j u' := by
  induction ids generalizing m with
  | nil => rfl
  | cons k t ih =>
    have hjk : ¬(j = k ∧ u' = u) := by
      intro hk
      exact hj (hk.1 ▸ List.mem_cons_self k t)
    have hjt : j ∉ t := fun ht => hj (List.mem_cons_of_mem k ht)
    have hunf : overwriteAll m (k :: t) u v = overwriteAll (setInDoubleMap m k u v) t u v := rfl
    rw [hunf, ih (setInDoubleMap m k u v) hjt, getFromDoubleMap_set, if_neg hjk]

theorem overwriteAll_get_mem (ids : List String) (m : JMap (JMap Val))
    (u : String) (v : Val) (j : String) (hj : j ∈ ids) :
    getFromDoubleMap (overwriteAll m ids u v) j u = some v := by
  induction ids generalizing m with
  | nil => simp at hj
  | cons k t ih =>
    have hunf : overwriteAll m (k :: t) u v = overwriteAll (setInDoubleMap m k u v) t u v := rfl
    rw [hunf]
    by_cases hjt : j ∈ t
    · exact ih (setInDoubleMap m k u v) hjt
    · have hjk : j = k := by
        rcases List.mem_cons.1 hj with h1 | h1
        · exact h1
        · exact absurd h1 hjt
      subst hjk
      rw [overwriteAll_get_notMem t (setInDoubleMap m j u v) u u v j hjt,
        getFromDoubleMap_set, if_pos ⟨rfl, rfl⟩]

/-- C5: when a post with a configured related read key succeeds with a
non-stale epoch, then with `useResponseData` the response is pushed via
`setData` to every instance registered for the read key and the read cache
entry for that key is overwritten for every known instance, with no
re-fetch issued; without `useResponseData` the registered triggers are all
invoked instead, no `setData` push happens and the read cache is not
directly overwritten. -/
theorem post_success_propagation
    (i u cg : String) (epoch : Nat) (opts : PostOpts) (st : CacheState)
    (h : PostHookState) (result : Val)
    (hfresh : getFromDoubleMap st.setEpochMap i u = some epoch)
    (hget : strOptTruthy opts.getUrl = true)
    (hcg : effGetUrl opts = some cg) :
    (boolOptTruthy opts.useResponseData = true →
      (∀ j, (getFromDoubleMap st.getSetDataMap j cg).isSome →
        Effect.setDataPush j cg (OptData.value result)
          ∈ (postResolve i u epoch opts st h (Except.ok result)).2.2) ∧
      (∀ j, j ∈ knownInstances st.getDataMap →
        getFromDoubleMap
            (postResolve i u epoch opts st h (Except.ok result)).1.getDataMap j cg
          = some result) ∧
      (∀ j u2, Effect.triggerCall j u2
          ∉ (postResolve i u epoch opts st h (Except.ok result)).2.2)) ∧
    (boolOptTruthy opts.useResponseData = false →
      (∀ j, (getFromDoubleMap st.getTriggerMap j cg).isSome →
        Effect.triggerCall j cg
          ∈ (postResolve i u epoch opts st h (Except.ok result)).2.2) ∧
      (postResolve i u epoch opts st h (Except.ok result)).1.getDataMap
          = st.getDataMap ∧
      (∀ j u2 a, Effect.setDataPush j u2 a
          ∉ (postResolve i u epoch opts st h (Except.ok result)).2.2)) := by
  simp only [postResolve, hfresh, hcg, hget, ne_eq, not_true_eq_false, if_false,
    ite_false, Option.getD_some, Bool.not_true]
  constructor
  · intro hurd
    simp only [hurd, if_true, ite_true]
    refine ⟨?_, ?_, ?_⟩
    · intro j hj
      exact List.mem_map.2 ⟨j, mem_instancesForUrl hj, rfl⟩
    · intro j hj
      exact overwriteAll_get_mem (knownInstances st.getDataMap) st.getDataMap cg result j hj
    · intro j u2 hmem
      rcases List.mem_map.1 hmem with ⟨j2, _, heq⟩
      exact Effect.noConfusion heq
  · intro hurd
    simp only [hurd, if_false, ite_false, Bool.false_eq_true]
    refine ⟨?_, ?_, ?_⟩
    · intro j hj
      exact List.mem_map.2 ⟨j, mem_instancesForUrl hj, rfl⟩
    · trivial
    · intro j u2 a hmem
      rcases List.mem_map.1 hmem with ⟨j2, _, heq⟩
      exact Effect.noConfusion heq

/-- C5 witness: a concrete successful post with `useResponseData` pushes
the response 7 to the one registered subscriber of the read key and
overwrites the known instance's read cache entry with 7. -/
theorem post_success_propagation_witness :
    Effect.setDataPush "A" "/g" (OptData.value (Val.vint 7))
      ∈ (postResolve "P" "/p" 1
          { query := none, getUrl := some "/g", getterQuery := none,
            optimisticData := none, useResponseData := some true }
          { emptyState with
            getSetDataMap := [("A", [("/g", ())])],
            getDataMap := [("A", [("/old", Val.vint 0)])],
            setEpochMap := [("P", [("/p", 1)])] }
          { data := Val.vnull, isPosting := true, error := none }
          (Except.ok (Val.vint 7))).2.2 ∧
    getFromDoubleMap
        (postResolve "P" "/p" 1
          { query := none, getUrl := some "/g", getterQuery := none,
            optimisticData := none, useResponseData := some true }
          { emptyState with
            getSetDataMap := [("A", [("/g", ())])],
            getDataMap := [("A", [("/old", Val.vint 0)])],
            setEpochMap := [("P", [("/p", 1)])] }
          { data := Val.vnull, isPosting := true, error := none }
          (Except.ok (Val.vint 7))).1.getDataMap "A" "/g" = some (Val.vint 7) := by
  have h := post_success_propagation "P" "/p" "/g" 1
    { query := none, getUrl := some "/g", getterQuery := none,
      optimisticData := none, useResponseData := some true }
    { emptyState with
      getSetDataMap := [("A", [("/g", ())])],
      getDataMap := [("A", [("/old", Val.vint 0)])],
      setEpochMap := [("P", [("/p", 1)])] }
    { data := Val.vnull, isPosting := true, error := none }
    (Val.vint 7) rfl rfl rfl
  have hb := h.1 rfl
  exact ⟨hb.1 "A" rfl, hb.2.1 "A" (by decide)⟩

/-- Post options with query parameters and a truthy optimistic value. -/
def c4Opts : PostOpts :=
  { query := some [("a", "1")], getUrl := none, getterQuery := none,
    optimisticData := some (OptData.value (Val.vint 9)), useResponseData := none }

/-- State after a first successful post of this hook (response 5 cached —
under the base address, as the code does) and a second post in flight with
epoch 2. -/
def c4State : CacheState :=
  { emptyState with
    setEpochMap := [("inst1", [("/p", 2)])],
    setDataMap := [("inst1", [("/p", Val.vint 5)])] }

/-- C4 counterexample: with query parameters configured the write cache
holds no confirmed value at the effective post key, yet a failing
optimistic post restores the posting instance's data to 5 — the confirmed
value cached under the base address — and not to a last confirmed cached
value for the post key, of which there is none. -/
theorem post_rollback_not_at_post_key :
    effPostUrl "/p" c4Opts = "/p?a=1" ∧
    getFromDoubleMap c4State.setDataMap "inst1" "/p?a=1" = none ∧
    (postResolve "inst1" "/p" 2 c4Opts c4State
        { data := Val.vint 9, isPosting := false, error := none }
        (Except.error "fail")).2.1.data = Val.vint 5 :=
  ⟨rfl, rfl, rfl⟩

/-- C4 (amended): a failing non-stale post that applied a truthy optimistic
update changes no map, restores the posting instance's data to its last
confirmed cached value stored under the hook's base address (which is the
post key whenever no query parameters are configured), and, with a related
read key, every emitted rollback push targets an instance registered for
the read key and carries that same instance's own non-undefined cached
value for the read key — never another instance's — while every registered
instance with a saved snapshot receives its own snapshot and instances
without one receive nothing. -/
theorem post_failure_rollback
    (i u cg : String) (epoch : Nat) (opts : PostOpts) (st : CacheState)
    (h : PostHookState) (err : String)
    (hfresh : getFromDoubleMap st.setEpochMap i u = some epoch)
    (hopt : optDataTruthy opts.optimisticData = true)
    (hget : strOptTruthy opts.getUrl = true)
    (hcg : effGetUrl opts = some cg)
    (hnd : (st.getDataMap.map Prod.fst).Nodup) :
    (postResolve i u epoch opts st h (Except.error err)).1 = st ∧
    (postResolve i u epoch opts st h (Except.error err)).2.1.data
        = (getFromDoubleMap st.setDataMap i u).getD Val.undef ∧
    (∀ e ∈ (postResolve i u epoch opts st h (Except.error err)).2.2,
      ∃ j v, e = Effect.setDataPush j cg (OptData.value v) ∧
        (getFromDoubleMap st.getSetDataMap j cg).isSome ∧
        (getFromDoubleMap st.getDataMap j cg).getD Val.undef = v ∧
        v ≠ Val.undef) ∧
    (∀ j im, (j, im) ∈ st.getDataMap →
      (getFromDoubleMap st.getSetDataMap j cg).isSome →
      (JMap.get im cg).getD Val.undef ≠ Val.undef →
      Effect.setDataPush j cg (OptData.value ((JMap.get im cg).getD Val.undef))
        ∈ (postResolve i u epoch opts st h (Except.error err)).2.2) := by
  have hred : postResolve i u epoch opts st h (Except.error err)
      = (st,
         { data := (getFromDoubleMap st.setDataMap i u).getD Val.undef,
           isPosting := false, error := some err },
         rollbackEffects st cg) := by
    cases hod : opts.optimisticData with
    | none => rw [hod] at hopt; simp [optDataTruthy] at hopt
    | some od =>
      rw [hod] at hopt
      simp only [optDataTruthy] at hopt
      simp [postResolve, hfresh, hod, hopt, hget, hcg]
  rw [hred]
  refine ⟨rfl, rfl, ?_, ?_⟩
  · intro e he
    rcases List.mem_filterMap.1 he with ⟨p, hp, hf⟩
    by_cases hc : (getFromDoubleMap st.getSetDataMap p.1 cg).isSome
        ∧ (JMap.get p.2 cg).getD Val.undef ≠ Val.undef
    · rw [if_pos hc] at hf
      refine ⟨p.1, (JMap.get p.2 cg).getD Val.undef, ?_, hc.1, ?_, hc.2⟩
      · exact (Option.some.inj hf).symm
      · have hpget : JMap.get st.getDataMap p.1 = some p.2 :=
          JMap.get_of_mem_nodup hnd (by rcases p with ⟨p1, p2⟩; exact hp)
        unfold getFromDoubleMap
        rw [hpget]
        rfl
    · rw [if_neg hc] at hf
      exact Option.noConfusion hf
  · intro j im hmem hreg hval
    refine List.mem_filterMap.2 ⟨(j, im), hmem, ?_⟩
    rw [if_pos ⟨hreg, hval⟩]

/-- C4 witness: a concrete failing optimistic post restores the poster's
data to its cached confirmed response 5 and pushes instance A its own
cached read value 1. -/
theorem post_failure_rollback_witness :
    (postResolve "P" "/p" 1
        { query := none, getUrl := some "/g", getterQuery := none,
          optimisticData := some (OptData.value (Val.vint 9)), useResponseData := none }
        { emptyState with
          getDataMap := [("A", [("/g", Val.vint 1)])],
          getSetDataMap := [("A", [("/g", ())])],
          setEpochMap := [("P", [("/p", 1)])],
          setDataMap := [("P", [("/p", Val.vint 5)])] }
        { data := Val.vint 9, isPosting := false, error := none }
        (Except.error "fail")).2.1.data = Val.vint 5 ∧
    Effect.setDataPush "A" "/g" (OptData.value (Val.vint 1))
      ∈ (postResolve "P" "/p" 1
          { query := none, getUrl := some "/g", getterQuery := none,
            optimisticData := some (OptData.value (Val.vint 9)), useResponseData := none }
          { emptyState with
            getDataMap := [("A", [("/g", Val.vint 1)])],
            getSetDataMap := [("A", [("/g", ())])],
            setEpochMap := [("P", [("/p", 1)])],
            setDataMap := [("P", [("/p", Val.vint 5)])] }
          { data := Val.vint 9, isPosting := false, error := none }
          (Except.error "fail")).2.2 := by
  have h := post_failure_rollback "P" "/p" "/g" 1
    { query := none, getUrl := some "/g", getterQuery := none,
      optimisticData := some (OptData.value (Val.vint 9)), useResponseData := none }
    { emptyState with
      getDataMap := [("A", [("/g", Val.vint 1)])],
      getSetDataMap := [("A", [("/g", ())])],
      setEpochMap := [("P", [("/p", 1)])],
      setDataMap := [("P", [("/p", Val.vint 5)])] }
    { data := Val.vint 9, isPosting := false, error := none } "fail"
    rfl rfl rfl rfl (by decide)
  refine ⟨?_, ?_⟩
  · rw [h.2.1]
    decide
  · have h4 := h.2.2.2 "A" [("/g", Val.vint 1)] (by decide) rfl (by decide)
    exact h4

end ReactGetPost
